import Mathlib

/-!
Verification of the zenshin backend's ingestion and response-structuring
pipelines against their natural-language specification.

The Python sources under `backend/app` are shallowly embedded below:
pure functions become Lean functions, Python dynamic (JSON-shaped) values
become the inductive type `JVal`, code that can raise becomes
`Except String`, and the effectful GitHub tree walk becomes a function of
an abstract response environment that additionally records which branches
were queried.  Machine-level caveats of the model are noted at each
definition.
-/

namespace Zenshin

/-! ### Python string primitives

ASCII models of the Python `str` operations used by the sources.  Python
semantics are Unicode-aware; every claim below only exercises ASCII data,
and the sources themselves only compare against ASCII constants.
-/

/-- ASCII whitespace, as matched by Python `str.strip` and the regex
class backslash-s: space, tab, newline, carriage return, vertical tab,
form feed. -/
def isPyWs (c : Char) : Bool :=
  c = ' ' || c = '\t' || c = '\n' || c = '\r' || c = '\x0b' || c = '\x0c'

/-- Python `str.lstrip()` (no argument): drop leading whitespace. -/
def pyLStrip (s : String) : String :=
  String.mk (s.toList.dropWhile isPyWs)

/-- Python `str.strip()` (no argument): drop whitespace at both ends. -/
def pyStrip (s : String) : String :=
  String.mk (((s.toList.dropWhile isPyWs).reverse.dropWhile isPyWs).reverse)

/-- Python slicing `s[:n]` for a nonnegative literal `n`. -/
def strTake (s : String) (n : Nat) : String :=
  String.mk (s.toList.take n)

/-- Python `str.lower()` (ASCII range; the sources only compare against
ASCII constants). -/
def strLower (s : String) : String :=
  String.mk (s.toList.map Char.toLower)

/-- Splits a character list at every occurrence of `sep`, keeping empty
pieces, as Python `str.split(sep)` does for a one-character separator. -/
def splitOnChar (sep : Char) : List Char → List (List Char)
  | [] => [[]]
  | c :: rest =>
    match splitOnChar sep rest with
    | [] => [[]]
    | piece :: pieces =>
      if c = sep then [] :: piece :: pieces else (c :: piece) :: pieces

/-- Python `s.split(sep)` for a one-character separator. -/
def pySplit (s : String) (sep : Char) : List String :=
  (splitOnChar sep s.toList).map String.mk

/-- Python `s.strip(ch)` for a one-character strip set. -/
def pyStripChar (s : String) (ch : Char) : String :=
  String.mk
    (((s.toList.dropWhile (fun c => c = ch)).reverse.dropWhile
        (fun c => c = ch)).reverse)

/-- Python `s.endswith(suffix)` for a one-character suffix. -/
def strEndsWithChar (s : String) (ch : Char) : Bool :=
  match s.toList.reverse with
  | [] => false
  | c :: _ => c = ch

/-- Python `str.lstrip('.')`: drop every leading dot. -/
def lstripDots (s : String) : String :=
  String.mk (s.toList.dropWhile (fun c => c = '.'))

/-- Word characters of the regex class backslash-w (ASCII): letters,
digits and underscore. -/
def isWordChar (c : Char) : Bool :=
  c.isAlpha || c.isDigit || c = '_'

/-- The opening brace character, kept out of literals for hygiene. -/
def lbrace : Char := Char.ofNat 123

/-- The closing brace character. -/
def rbrace : Char := Char.ofNat 125

/-- Splits the leading maximal run of word characters, returning the run
and the remaining characters. -/
def takeWordRun : List Char → (List Char × List Char)
  | [] => ([], [])
  | c :: rest =>
    if isWordChar c then
      let (run, tail) := takeWordRun rest
      (c :: run, tail)
    else ([], c :: rest)

theorem takeWordRun_snd_length (l : List Char) :
    (takeWordRun l).2.length ≤ l.length := by
  induction l with
  | nil => simp [takeWordRun]
  | cons c rest ih =>
    simp only [takeWordRun]
    split
    · simpa using Nat.le_succ_of_le ih
    · simp

/-- Fuel-driven splitter of a character list into its maximal runs of
word characters. -/
def wordTokensAux : Nat → List Char → List String
  | 0, _ => []
  | _ + 1, [] => []
  | fuel + 1, c :: rest =>
    if isWordChar c then
      let (run, tail) := takeWordRun (c :: rest)
      String.mk run :: wordTokensAux fuel tail
    else wordTokensAux fuel rest

/-- The maximal word-character runs of a string, in order.  A
word-boundary-delimited regex alternative such as
`\b(issue|problem|bug|error|warning)\b` matches exactly the tokens of
this list that equal one of the alternatives, so the `re.findall` counts
in the sources are counts over this list. -/
def wordTokens (s : String) : List String :=
  wordTokensAux (s.toList.length + 1) s.toList

/-- Number of case-insensitive whole-word occurrences in `s` of any word
in `words` (the words are given lowercase).  Model of
`len(re.findall(r'\b(w1|w2|...)\b', s, re.IGNORECASE))` for word-only
alternatives. -/
def countWordsCI (words : List String) (s : String) : Nat :=
  (wordTokens s).countP (fun t => words.contains (strLower t))

/-- Number of case-insensitive whole-word occurrences of the single word
`w` in `s`: model of `len(re.findall(r'\b' + re.escape(w) + r'\b', s,
re.IGNORECASE))`. -/
def countWordCI (w : String) (s : String) : Nat :=
  (wordTokens s).countP (fun t => strLower t = w)

/-- Tests whether `needle` occurs as a contiguous sublist of
`haystack`. -/
def listInfixOf (needle : List Char) : List Char → Bool
  | [] => needle.isEmpty
  | c :: rest => needle.isPrefixOf (c :: rest) || listInfixOf needle rest

/-- Python `needle in haystack` on strings. -/
def strContains (haystack needle : String) : Bool :=
  listInfixOf needle.toList haystack.toList

/-! ### JSON-shaped Python values

`JVal` models the dynamic values produced by `json.loads` and passed
around as `Dict[str, Any]` in the sources.  JSON numbers are modelled as
integers; none of the claims exercises fractional values. -/

/-- A parsed JSON value / dynamic Python value. -/
inductive JVal where
  | null
  | bool (b : Bool)
  | int (n : Int)
  | str (s : String)
  | arr (xs : List JVal)
  | obj (kvs : List (String × JVal))
deriving Repr

/-- First binding of key `k` in an association list.  The object lists
built by the parser model have unique keys (later duplicates overwrite),
so this is Python `dict` lookup. -/
def jLookup (kvs : List (String × JVal)) (k : String) : Option JVal :=
  match kvs with
  | [] => none
  | (k', v) :: rest => if k' = k then some v else jLookup rest k

/-- Python `d.get(k, default)` on a value already known to be a dict. -/
def jLookupD (kvs : List (String × JVal)) (k : String) (d : JVal) : JVal :=
  (jLookup kvs k).getD d

/-- Inserts a key/value pair the way the Python `dict` builder does:
an existing binding of the key is overwritten in place, a new key is
appended. -/
def jInsert (kvs : List (String × JVal)) (k : String) (v : JVal) :
    List (String × JVal) :=
  match kvs with
  | [] => [(k, v)]
  | (k', v') :: rest =>
    if k' = k then (k', v) :: rest else (k', v') :: jInsert rest k v

/-- Python truthiness of a JSON-shaped value. -/
def pyTruthy : JVal → Bool
  | .null => false
  | .bool b => b
  | .int n => n != 0
  | .str s => s != ""
  | .arr xs => !xs.isEmpty
  | .obj kvs => !kvs.isEmpty

/-- Python iteration `for x in v`: lists iterate their elements, strings
their characters, dicts their keys; other values raise `TypeError`
(modelled as `none`). -/
def pyIter : JVal → Option (List JVal)
  | .arr xs => some xs
  | .str s => some (s.toList.map (fun c => JVal.str (String.mk [c])))
  | .obj kvs => some (kvs.map (fun kv => JVal.str kv.1))
  | _ => none

/-- Renders a list of strings with a separator. -/
def joinSep (sep : String) : List String → String
  | [] => ""
  | [s] => s
  | s :: rest => s ++ sep ++ joinSep sep rest

/-- Fuel-driven rendering of a JSON-shaped value as Python `str` does:
scalars follow Python exactly (`True`, `None`, decimal integers, the
string itself); containers are rendered in Python repr style with string
escaping elided, the fuel bounding the rendered depth.  Every claim below
only truncates or bounds the length of these renderings, or applies them
to scalar strings. -/
def pyStrAux : Nat → JVal → String
  | _, .null => "None"
  | _, .bool b => if b then "True" else "False"
  | _, .int n => toString n
  | _, .str s => s
  | 0, .arr _ => "[...]"
  | 0, .obj _ => String.mk [lbrace] ++ "..." ++ String.mk [rbrace]
  | fuel + 1, .arr xs =>
    "[" ++ joinSep ", "
      (xs.map fun v =>
        match v with
        | .str s => "'" ++ s ++ "'"
        | v' => pyStrAux fuel v') ++ "]"
  | fuel + 1, .obj kvs =>
    String.mk [lbrace] ++ joinSep ", "
      (kvs.map fun kv =>
        "'" ++ kv.1 ++ "': " ++
          match kv.2 with
          | .str s => "'" ++ s ++ "'"
          | v' => pyStrAux fuel v') ++ String.mk [rbrace]

/-- Python `str(v)` for a JSON-shaped value. -/
def pyStr (v : JVal) : String := pyStrAux 1000 v

/-- Parses a decimal digit run (already known nonempty) to a natural
number. -/
def digitsToNat (l : List Char) : Nat :=
  l.foldl (fun acc c => acc * 10 + (c.toNat - '0'.toNat)) 0

/-- Python `int(s)` for strings: optional surrounding whitespace, an
optional sign, then one or more digits; anything else raises `ValueError`
(modelled as `none`).  Underscore digit separators are not modelled. -/
def pyIntOfStr (s : String) : Option Int :=
  let l := (s.toList.dropWhile isPyWs).reverse.dropWhile isPyWs |>.reverse
  let (neg, digits) :=
    match l with
    | '-' :: rest => (true, rest)
    | '+' :: rest => (false, rest)
    | _ => (false, l)
  if digits.isEmpty || ¬ digits.all Char.isDigit then none
  else some (if neg then -(digitsToNat digits : Int) else (digitsToNat digits : Int))

/-- Python `int(v)` on a JSON-shaped value: ints and bools convert,
numeric strings parse, everything else raises (modelled as `none`). -/
def pyIntVal : JVal → Option Int
  | .int n => some n
  | .bool b => some (if b then 1 else 0)
  | .str s => pyIntOfStr s
  | _ => none

/-! ### A model of `json.loads`

The sources call the external standard-library parser `json.loads`.  The
theorems below that quantify over raw text take the parser as an
arbitrary argument `jl : String → Option JVal`, so they hold for the real
parser; `myJsonParse` is a concrete executable instance used for the
witnesses and counterexamples.  It covers objects, arrays, strings with
the single-character escapes, integers, booleans and null — exactly the
fragment the concrete inputs below use (floats and unicode escapes are
rejected). -/

/-- JSON whitespace skipping (space, tab, newline, carriage return). -/
def jsonSkipWs (l : List Char) : List Char :=
  l.dropWhile (fun c => c = ' ' || c = '\t' || c = '\n' || c = '\r')

/-- Parses the body of a JSON string after the opening quote, handling
the single-character escapes. -/
def parseJsonStringBody : List Char → Option (List Char × List Char)
  | [] => none
  | c :: rest =>
    if c = '"' then some ([], rest)
    else if c = '\\' then
      match rest with
      | [] => none
      | e :: rest2 =>
        let esc : Option Char :=
          if e = '"' then some '"'
          else if e = '\\' then some '\\'
          else if e = '/' then some '/'
          else if e = 'n' then some '\n'
          else if e = 't' then some '\t'
          else if e = 'r' then some '\r'
          else if e = 'b' then some '\x08'
          else if e = 'f' then some '\x0c'
          else none
        match esc with
        | none => none
        | some ch =>
          match parseJsonStringBody rest2 with
          | none => none
          | some (body, tail) => some (ch :: body, tail)
    else
      match parseJsonStringBody rest with
      | none => none
      | some (body, tail) => some (c :: body, tail)

/-- Builds the integer value of a parsed number. -/
def numVal (neg : Bool) (digits : List Char) : JVal :=
  .int (if neg then -(digitsToNat digits : Int) else (digitsToNat digits : Int))

mutual

/-- Fuel-driven recursive-descent JSON value parser. -/
def parseJsonVal : Nat → List Char → Option (JVal × List Char)
  | 0, _ => none
  | fuel + 1, l =>
    match jsonSkipWs l with
    | [] => none
    | c :: rest =>
      if c = '"' then
        match parseJsonStringBody rest with
        | none => none
        | some (body, tail) => some (.str (String.mk body), tail)
      else if c = 't' then
        if rest.take 3 = ['r', 'u', 'e'] then some (.bool true, rest.drop 3) else none
      else if c = 'f' then
        if rest.take 4 = ['a', 'l', 's', 'e'] then some (.bool false, rest.drop 4) else none
      else if c = 'n' then
        if rest.take 3 = ['u', 'l', 'l'] then some (.null, rest.drop 3) else none
      else if c = lbrace then
        match jsonSkipWs rest with
        | c2 :: rest2 =>
          if c2 = rbrace then some (.obj [], rest2)
          else parseJsonMembers fuel (c2 :: rest2) []
        | [] => none
      else if c = '[' then
        match jsonSkipWs rest with
        | c2 :: rest2 =>
          if c2 = ']' then some (.arr [], rest2)
          else parseJsonElems fuel (c2 :: rest2) []
        | [] => none
      else if c = '-' || c.isDigit then
        let (neg, l2) := if c = '-' then (true, rest) else (false, c :: rest)
        let digits := l2.takeWhile Char.isDigit
        let tail := l2.dropWhile Char.isDigit
        if digits.isEmpty then none
        else
          match tail with
          | d :: _ => if d = '.' || d = 'e' || d = 'E' then none
              else some (numVal neg digits, tail)
          | [] => some (numVal neg digits, tail)
      else none

/-- Parses the members of an object, accumulating bindings with
last-duplicate-wins dict semantics. -/
def parseJsonMembers (fuel : Nat) (l : List Char) (acc : List (String × JVal)) :
    Option (JVal × List Char) :=
  match fuel with
  | 0 => none
  | fuel + 1 =>
    match jsonSkipWs l with
    | c :: rest =>
      if c = '"' then
        match parseJsonStringBody rest with
        | none => none
        | some (key, afterKey) =>
          match jsonSkipWs afterKey with
          | ':' :: afterColon =>
            match parseJsonVal fuel afterColon with
            | none => none
            | some (v, afterVal) =>
              let acc2 := jInsert acc (String.mk key) v
              match jsonSkipWs afterVal with
              | ',' :: afterComma => parseJsonMembers fuel afterComma acc2
              | c3 :: rest3 =>
                if c3 = rbrace then some (.obj acc2, rest3) else none
              | [] => none
          | _ => none
      else none
    | [] => none

/-- Parses the elements of an array. -/
def parseJsonElems (fuel : Nat) (l : List Char) (acc : List JVal) :
    Option (JVal × List Char) :=
  match fuel with
  | 0 => none
  | fuel + 1 =>
    match parseJsonVal fuel l with
    | none => none
    | some (v, afterVal) =>
      match jsonSkipWs afterVal with
      | ',' :: afterComma => parseJsonElems fuel afterComma (acc ++ [v])
      | ']' :: rest3 => some (.arr (acc ++ [v]), rest3)
      | _ => none

end

/-- Concrete model of `json.loads`: parse one value, allow trailing
whitespace, reject anything else. -/
def myJsonParse (s : String) : Option JVal :=
  match parseJsonVal (2 * s.toList.length + 2) s.toList with
  | some (v, rest) => if jsonSkipWs rest = [] then some v else none
  | none => none

/-! ### backend/app/utils/response_formatter.py

The regex patterns of `_extract_json_from_response` are compiled to
explicit scanners with the same match semantics (leftmost match,
non-greedy brace body, `re.DOTALL`, non-overlapping `findall`). -/

/-- The three-backtick fence characters. -/
def ticks : List Char := "```".toList

/-- The characters of the fence opener of the pattern tagged `json`. -/
def jsonFenceTag : List Char := "```json".toList

/-- Drops `pre` from the front of `l` if it is a prefix, as one regex
literal. -/
def stripPre (pre l : List Char) : Option (List Char) :=
  match pre, l with
  | [], l => some l
  | _ :: _, [] => none
  | p :: ps, c :: cs => if p = c then stripPre ps cs else none

/-- After a closing brace candidate: matches the regex tail
whitespace-star-then-fence, returning the remaining input. -/
def fenceTail (l : List Char) : Option (List Char) :=
  stripPre ticks (l.dropWhile isPyWs)

/-- Non-greedy scan of the fenced patterns' brace body: finds the
earliest closing brace whose tail matches whitespace then a fence,
returning the captured body (braces included) and the input after the
closing fence.  Characters scanned so far are accumulated in `acc`. -/
def scanToCloseFenced (acc : List Char) : List Char → Option (List Char × List Char)
  | [] => none
  | c :: rest =>
    if c = rbrace then
      match fenceTail rest with
      | some after => some (acc ++ [c], after)
      | none => scanToCloseFenced (acc ++ [c]) rest
    else scanToCloseFenced (acc ++ [c]) rest

/-- Attempts to match one fenced pattern
(`tag` then whitespace then brace body then whitespace then fence) at the
head of `l`; on success returns the captured group and the input after
the whole match. -/
def matchFencedAt (tag : List Char) (l : List Char) : Option (List Char × List Char) :=
  match stripPre tag l with
  | none => none
  | some l1 =>
    match (l1.dropWhile isPyWs) with
    | c :: l2 => if c = lbrace then scanToCloseFenced [c] l2 else none
    | [] => none

/-- Fuel-driven `re.findall` for a fenced pattern: try a match at every
position left to right, resuming after each whole match. -/
def findallFencedAux (tag : List Char) : Nat → List Char → List String
  | 0, _ => []
  | _ + 1, [] => []
  | fuel + 1, l@(_ :: rest) =>
    match matchFencedAt tag l with
    | some (cap, after) => String.mk cap :: findallFencedAux tag fuel after
    | none => findallFencedAux tag fuel rest

/-- All captures of the fenced pattern with opener `tag` in `s`, in
order: model of `re.findall(r'<tag>\s*(\{.*?\})\s*<fence>', s,
re.DOTALL)`. -/
def findallFenced (tag : List Char) (s : String) : List String :=
  findallFencedAux tag (s.toList.length + 1) s.toList

/-- Non-greedy scan to the first closing brace, returning the body before
it and the input after it. -/
def scanToCloseBrace (acc : List Char) : List Char → Option (List Char × List Char)
  | [] => none
  | c :: rest =>
    if c = rbrace then some (acc.reverse, rest)
    else scanToCloseBrace (c :: acc) rest

/-- Fuel-driven `re.findall` for the raw brace pattern. -/
def findallBraceAux : Nat → List Char → List String
  | 0, _ => []
  | _ + 1, [] => []
  | fuel + 1, c :: rest =>
    if c = lbrace then
      match scanToCloseBrace [] rest with
      | some (body, after) =>
        String.mk (c :: body ++ [rbrace]) :: findallBraceAux fuel after
      | none => findallBraceAux fuel rest
    else findallBraceAux fuel rest

/-- All captures of the raw pattern brace-dot-star-non-greedy-brace in
`s`, in order: model of `re.findall(r'(\{.*?\})', s, re.DOTALL)`. -/
def findallBrace (s : String) : List String :=
  findallBraceAux (s.toList.length + 1) s.toList

/-- Returns the parse of the first candidate that the JSON parser
accepts, scanning the candidates in order (the inner `for match in
matches: try json.loads` loop). -/
def firstParse (jl : String → Option JVal) : List String → Option JVal
  | [] => none
  | cand :: rest =>
    match jl cand with
    | some v => some v
    | none => firstParse jl rest

/-- Model of `_extract_json_from_response`: the three patterns are tried
top to bottom and within each pattern every match is offered to the JSON
parser `jl`; the first successful parse wins.  `jl` abstracts the
standard-library `json.loads`. -/
def extractJsonFromResponse (jl : String → Option JVal) (response : String) :
    Option JVal :=
  match firstParse jl (findallFenced jsonFenceTag response) with
  | some v => some v
  | none =>
    match firstParse jl (findallFenced ticks response) with
    | some v => some v
    | none => firstParse jl (findallBrace response)

/-- Model of `_safe_int`: Python `int(value)` with optional clamping,
falling back to `default` when the conversion raises. -/
def safeInt (value : JVal) (default : Int) (minVal maxVal : Option Int) : Int :=
  match pyIntVal value with
  | none => default
  | some r =>
    let r := match minVal with | some m => max m r | none => r
    match maxVal with | some m => min m r | none => r

/-- The valid issue types of `_validate_issue_type`. -/
def validTypes : List String :=
  ["security", "performance", "maintainability", "style", "bug"]

/-- The type synonym table of `_validate_issue_type`. -/
def typeMappings : List (String × String) :=
  [("sec", "security"), ("perf", "performance"), ("maint", "maintainability"),
   ("maintain", "maintainability"), ("format", "style"),
   ("formatting", "style"), ("error", "bug"), ("defect", "bug")]

/-- The valid severities of `_validate_severity`. -/
def validSeverities : List String :=
  ["critical", "high", "medium", "low"]

/-- The severity synonym table of `_validate_severity`. -/
def severityMappings : List (String × String) :=
  [("crit", "critical"), ("urgent", "critical"), ("major", "high"),
   ("minor", "low"), ("info", "low"), ("warning", "medium"),
   ("warn", "medium")]

/-- First value bound to `k` in a string association list, or `d`. -/
def assocGetD (l : List (String × String)) (k : String) (d : String) : String :=
  match l with
  | [] => d
  | (k', v) :: rest => if k' = k then v else assocGetD rest k d

/-- Model of `_validate_issue_type`: normalize, accept the fixed
enumeration, remap synonyms, default to maintainability. -/
def validateIssueType (issueType : JVal) : String :=
  let normalized := pyStrip (strLower (pyStr issueType))
  if validTypes.contains normalized then normalized
  else assocGetD typeMappings normalized "maintainability"

/-- Model of `_validate_severity`: normalize, accept the fixed
enumeration, remap synonyms, default to medium. -/
def validateSeverity (severity : JVal) : String :=
  let normalized := pyStrip (strLower (pyStr severity))
  if validSeverities.contains normalized then normalized
  else assocGetD severityMappings normalized "medium"

/-- The cleaned analysis summary assembled by
`_validate_and_clean_response`. -/
structure CleanedSummary where
  total_issues : Int
  security_issues : Int
  performance_issues : Int
  maintainability_issues : Int
  style_issues : Int
  bug_issues : Int
  overall_score : Int
deriving Repr, DecidableEq

/-- One cleaned issue assembled by `_validate_and_clean_response`. -/
structure CleanedIssue where
  file : String
  line : Option Int
  type : String
  severity : String
  message : String
  suggestion : String
  code_snippet : Option String
  improved_code : Option String
deriving Repr, DecidableEq

/-- One cleaned per-file score assembled by
`_validate_and_clean_response`. -/
structure CleanedFileScore where
  file : String
  score : Int
  issues_count : Int
deriving Repr, DecidableEq

/-- The structured result of `parse_claude_response` (the spec's
StructuredResult). -/
structure CleanedResponse where
  analysis_summary : CleanedSummary
  detailed_issues : List CleanedIssue
  file_scores : List CleanedFileScore
  general_feedback : String
deriving Repr, DecidableEq

/-- Cleaning of one issue dict (the body of the `isinstance(issue, dict)`
branch of `_validate_and_clean_response`). -/
def cleanIssue (ikvs : List (String × JVal)) : CleanedIssue :=
  { file := pyStr (jLookupD ikvs "file" (.str "unknown"))
    line :=
      match jLookupD ikvs "line" .null with
      | .null => none
      | v => some (safeInt v 0 none none)
    type := validateIssueType (jLookupD ikvs "type" (.str "maintainability"))
    severity := validateSeverity (jLookupD ikvs "severity" (.str "medium"))
    message := strTake (pyStr (jLookupD ikvs "message" (.str ""))) 500
    suggestion := strTake (pyStr (jLookupD ikvs "suggestion" (.str ""))) 1000
    code_snippet :=
      if pyTruthy (jLookupD ikvs "code_snippet" .null)
      then some (strTake (pyStr (jLookupD ikvs "code_snippet" (.str ""))) 2000)
      else none
    improved_code :=
      if pyTruthy (jLookupD ikvs "improved_code" .null)
      then some (strTake (pyStr (jLookupD ikvs "improved_code" (.str ""))) 2000)
      else none }

/-- Cleaning of one file-score dict. -/
def cleanFileScore (fkvs : List (String × JVal)) : CleanedFileScore :=
  { file := pyStr (jLookupD fkvs "file" (.str "unknown"))
    score := safeInt (jLookupD fkvs "score" (.int 85)) 0 (some 0) (some 100)
    issues_count := safeInt (jLookupD fkvs "issues_count" (.int 0)) 0 none none }

/-- Model of `_validate_and_clean_response`.  The function is not total
on arbitrary parsed JSON: `summary.get(...)` raises `AttributeError`
when `analysis_summary` is present but not an object, and `for issue in
issues` raises `TypeError` when `detailed_issues` (or `file_scores`) is
not iterable; those raises are the `Except.error` cases. -/
def validateAndCleanResponse (data : JVal) : Except String CleanedResponse :=
  match data with
  | .obj kvs =>
    match jLookupD kvs "analysis_summary" (.obj []) with
    | .obj skvs =>
      let summary : CleanedSummary :=
        { total_issues := safeInt (jLookupD skvs "total_issues" (.int 0)) 0 none none
          security_issues := safeInt (jLookupD skvs "security_issues" (.int 0)) 0 none none
          performance_issues := safeInt (jLookupD skvs "performance_issues" (.int 0)) 0 none none
          maintainability_issues := safeInt (jLookupD skvs "maintainability_issues" (.int 0)) 0 none none
          style_issues := safeInt (jLookupD skvs "style_issues" (.int 0)) 0 none none
          bug_issues := safeInt (jLookupD skvs "bug_issues" (.int 0)) 0 none none
          overall_score := safeInt (jLookupD skvs "overall_score" (.int 85)) 0 (some 0) (some 100) }
      match pyIter (jLookupD kvs "detailed_issues" (.arr [])) with
      | none => .error "TypeError: detailed_issues is not iterable"
      | some issueVals =>
        match pyIter (jLookupD kvs "file_scores" (.arr [])) with
        | none => .error "TypeError: file_scores is not iterable"
        | some scoreVals =>
          .ok
            { analysis_summary := summary
              detailed_issues := issueVals.filterMap fun v =>
                match v with
                | .obj ikvs => some (cleanIssue ikvs)
                | _ => none
              file_scores := scoreVals.filterMap fun v =>
                match v with
                | .obj fkvs => some (cleanFileScore fkvs)
                | _ => none
              general_feedback :=
                strTake (pyStr (jLookupD kvs "general_feedback" (.str ""))) 2000 }
    | _ => .error "AttributeError: analysis_summary has no attribute get"
  | _ => .error "AttributeError: data has no attribute get"

/-- The keyword alternatives counted as issues by
`_parse_text_response`. -/
def issueWords : List String := ["issue", "problem", "bug", "error", "warning"]

/-- The keyword alternatives counted as security mentions. -/
def securityWords : List String := ["security", "vulnerable", "exploit"]

/-- The keyword alternatives counted as performance mentions. -/
def performanceWords : List String :=
  ["performance", "slow", "optimize", "inefficient"]

/-- Model of `_parse_text_response`: the keyword-frequency fallback used
when no JSON is found. -/
def parseTextResponse (response : String) : CleanedResponse :=
  let issuesCount : Int := countWordsCI issueWords response
  let securityMentions : Int := countWordsCI securityWords response
  let performanceMentions : Int := countWordsCI performanceWords response
  { analysis_summary :=
      { total_issues := issuesCount
        security_issues := min securityMentions issuesCount
        performance_issues := min performanceMentions issuesCount
        maintainability_issues :=
          max 0 (issuesCount - securityMentions - performanceMentions)
        style_issues := 0
        bug_issues := 0
        overall_score := max 50 (100 - issuesCount * 10) }
    detailed_issues := []
    file_scores := []
    general_feedback := strTake response 1000 }

/-- Model of `_get_empty_response`. -/
def getEmptyResponse : CleanedResponse :=
  { analysis_summary :=
      { total_issues := 0, security_issues := 0, performance_issues := 0
        maintainability_issues := 0, style_issues := 0, bug_issues := 0
        overall_score := 85 }
    detailed_issues := []
    file_scores := []
    general_feedback := "No analysis available." }

/-- Model of `parse_claude_response`: empty input gets the fixed neutral
default; otherwise the extracted JSON is validated when it is truthy (a
non-empty object), and the keyword fallback is used when extraction finds
nothing or an empty object. -/
def parseClaudeResponse (jl : String → Option JVal) (claudeResponse : String) :
    Except String CleanedResponse :=
  if claudeResponse = "" then .ok getEmptyResponse
  else
    match extractJsonFromResponse jl claudeResponse with
    | some jsonData =>
      if pyTruthy jsonData then validateAndCleanResponse jsonData
      else .ok (parseTextResponse claudeResponse)
    | none => .ok (parseTextResponse claudeResponse)

/-! ### backend/app/utils/code_parser.py

The complexity heuristic and the eligibility check.  The only
non-integer arithmetic in the source is the comment ratio
`comment_lines / len(non_empty_lines)`, a Python float; the model
evaluates the two uses of that ratio (`ratio > 0.1` and
`int(ratio * 50)`) with exact rational arithmetic, which agrees with the
float evaluation for every realistic file size. -/

/-- Python `content.split('\n')`. -/
def contentLines (content : String) : List String :=
  pySplit content '\n'

/-- The lines with non-whitespace content, in order (the list
comprehension `[line for line in lines if line.strip()]`). -/
def nonEmptyLines (content : String) : List String :=
  (contentLines content).filter (fun l => pyStrip l ≠ "")

/-- The brace-counting languages of `_calculate_max_nesting`. -/
def braceLanguages : List String :=
  ["javascript", "typescript", "java", "cpp", "c", "csharp"]

/-- The keywords whose presence in a colon-terminated line increases the
Python nesting estimate. -/
def pythonNestKeywords : List String :=
  ["if", "for", "while", "def", "class", "try", "with"]

/-- Number of leading whitespace characters of a line
(`len(line) - len(line.lstrip())`). -/
def leadingWsCount (line : String) : Int :=
  (line.toList.takeWhile isPyWs).length

/-- One step of `_calculate_max_nesting`'s loop: updates the pair of
maximum and current nesting with one line. -/
def nestingStep (language : Option String) (st : Int × Int) (line : String) :
    Int × Int :=
  let (maxNesting, currentNesting) := st
  let stripped := pyStrip line
  if stripped = "" then (maxNesting, currentNesting)
  else
    let currentNesting :=
      if braceLanguages.contains (language.getD "") ∧ language ≠ none then
        currentNesting + (line.toList.count lbrace : Int)
          - (line.toList.count rbrace : Int)
      else if language = some "python" then
        let currentNesting :=
          if strEndsWithChar stripped ':' ∧
              pythonNestKeywords.any (fun kw => strContains stripped kw) then
            currentNesting + 1
          else currentNesting
        let leading := leadingWsCount line
        if leading < currentNesting * 4 then max 0 (leading / 4)
        else currentNesting
      else currentNesting
    (max maxNesting currentNesting, currentNesting)

/-- Model of `_calculate_max_nesting`. -/
def calculateMaxNesting (content : String) (language : Option String) : Int :=
  ((contentLines content).foldl (nestingStep language) (0, 0)).1

/-- The per-language keyword lists of `_count_complexity_keywords`. -/
def complexityKeywordsFor (language : Option String) : List String :=
  if language = some "python" then
    ["if", "elif", "for", "while", "try", "except", "with", "lambda"]
  else if language = some "javascript" ∨ language = some "typescript" then
    ["if", "for", "while", "switch", "try", "catch", "function"]
  else if language = some "java" then
    ["if", "for", "while", "switch", "try", "catch"]
  else
    ["if", "for", "while", "try", "catch", "switch"]

/-- Model of `_count_complexity_keywords`: the word-boundary
case-insensitive occurrence counts of the keywords, summed. -/
def countComplexityKeywords (content : String) (language : Option String) : Int :=
  ((complexityKeywordsFor language).foldl
    (fun acc kw => acc + countWordCI kw content) 0 : Nat)

/-- Whether a stripped line counts as a comment line for the given
language in `_count_comment_lines`. -/
def isCommentLine (language : Option String) (stripped : String) : Bool :=
  if language = some "python" then
    strTake stripped 1 = "#"
  else if braceLanguages.contains (language.getD "") ∧ language ≠ none then
    strTake stripped 2 = "//" || strTake stripped 2 = "/*"
  else if language = some "html" then
    strContains stripped "<!--"
  else if language = some "yaml" ∨ language = some "yml" then
    strTake stripped 1 = "#"
  else
    strTake stripped 1 = "#" || strTake stripped 2 = "//" ||
      strTake stripped 2 = "/*" || strTake stripped 4 = "<!--"

/-- Model of `_count_comment_lines`. -/
def countCommentLines (content : String) (language : Option String) : Int :=
  ((contentLines content).countP
    (fun line => pyStrip line ≠ "" ∧ isCommentLine language (pyStrip line)) : Nat)

/-- The number of non-empty lines longer than 120 characters
(`sum(1 for line in non_empty_lines if len(line) > 120)`). -/
def longLineCount (content : String) : Int :=
  ((nonEmptyLines content).countP (fun l => l.length > 120) : Nat)

/-- Model of `calculate_complexity_score`: 100 minus capped penalties for
length, nesting, keyword density and long lines, plus a capped comment
bonus, clamped to [0, 100]. -/
def calculateComplexityScore (content : String) (language : Option String) : Int :=
  if content = "" then 100
  else if nonEmptyLines content = [] then 100
  else
    let n : Int := (nonEmptyLines content).length
    let score : Int := 100
    let score := if n > 100 then score - min 30 ((n - 100) / 20) else score
    let maxNesting := calculateMaxNesting content language
    let score :=
      if maxNesting > 3 then score - min 25 ((maxNesting - 3) * 5) else score
    let keywords := countComplexityKeywords content language
    let score :=
      if keywords > 10 then score - min 20 ((keywords - 10) * 2) else score
    let longLines := longLineCount content
    let score :=
      if longLines > 5 then score - min 15 ((longLines - 5) * 3) else score
    let commentLines := countCommentLines content language
    let score :=
      if 10 * commentLines > n then score + min 10 (commentLines * 50 / n)
      else score
    max 0 (min 100 score)

/-- The components of a POSIX path as `pathlib` keeps them: empty and
single-dot segments are dropped. -/
def pathComponents (p : String) : List String :=
  (pySplit p '/').filter (fun seg => seg ≠ "" ∧ seg ≠ ".")

/-- `pathlib.PurePath.name`: the final path component, or empty. -/
def pathName (p : String) : String :=
  (pathComponents p).getLastD ""

/-- `pathlib.PurePath.suffix`: the final component's extension with its
dot, empty when the rightmost dot is leading, trailing or absent. -/
def pathSuffix (p : String) : String :=
  let name := (pathName p).toList
  let i := name.length - 1 - (name.reverse.takeWhile (fun c => c ≠ '.')).length
  if name.contains '.' ∧ 0 < i ∧ i < name.length - 1 then
    String.mk (name.drop i)
  else ""

/-- An allow-list entry lowercased with leading dots stripped, as
`is_supported_file` normalizes it. -/
def normalizeExt (e : String) : String :=
  lstripDots (strLower e)

/-- The path's extension as `is_supported_file` computes it: the
`pathlib` suffix, lowercased, leading dots stripped. -/
def pathExtNorm (p : String) : String :=
  lstripDots (strLower (pathSuffix p))

/-- Model of `is_supported_file`: empty path or empty allow-list is
ineligible, otherwise membership of the normalized extension in the
normalized allow-list decides. -/
def isSupportedFile (filePath : String) (allowedExtensions : List String) : Bool :=
  if filePath = "" ∨ allowedExtensions = [] then false
  else (allowedExtensions.map normalizeExt).contains (pathExtNorm filePath)

/-! ### backend/app/utils/validators.py

`validate_github_url` parses the URL with `urllib.parse.urlparse`; the
scheme/netloc/path split of `urlsplit` is reproduced below. -/

/-- Characters allowed in a URL scheme after the leading letter. -/
def isSchemeChar (c : Char) : Bool :=
  c.isAlpha || c.isDigit || c = '+' || c = '-' || c = '.'

/-- Drops a valid `scheme:` opener, as `urlsplit` does: the part before
the first colon must start with a letter and contain only scheme
characters. -/
def dropScheme (url : List Char) : List Char :=
  let beforeColon := url.takeWhile (fun c => c ≠ ':')
  if beforeColon.length < url.length ∧ beforeColon ≠ [] ∧
      (beforeColon.headD ' ').isAlpha ∧ beforeColon.all isSchemeChar then
    url.drop (beforeColon.length + 1)
  else url

/-- The netloc of `urlparse(url)`: present only when the remainder after
the scheme starts with two slashes, and running to the next `/`, `?` or
`#`. -/
def urlparseNetloc (url : String) : String :=
  match dropScheme url.toList with
  | '/' :: '/' :: rest =>
    String.mk (rest.takeWhile (fun c => c ≠ '/' ∧ c ≠ '?' ∧ c ≠ '#'))
  | _ => ""

/-- The path of `urlparse(url)`: what follows the netloc up to the query
or fragment, with `urlparse`'s parameter part (a semicolon in the last
segment) split off. -/
def urlparsePath (url : String) : String :=
  let afterScheme := dropScheme url.toList
  let afterNetloc :=
    match afterScheme with
    | '/' :: '/' :: rest => rest.dropWhile (fun c => c ≠ '/' ∧ c ≠ '?' ∧ c ≠ '#')
    | l => l
  let rawPath := afterNetloc.takeWhile (fun c => c ≠ '?' ∧ c ≠ '#')
  let lastSeg := (rawPath.reverse.takeWhile (fun c => c ≠ '/')).reverse
  if lastSeg.contains ';' then
    String.mk (rawPath.take (rawPath.length - (lastSeg.reverse.takeWhile (fun c => c ≠ ';')).length - 1))
  else String.mk rawPath

/-- A character the GitHub owner/repo name pattern
`^[a-zA-Z0-9._-]+$` accepts. -/
def isGithubNameChar (c : Char) : Bool :=
  c.isAlpha || c.isDigit || c = '.' || c = '_' || c = '-'

/-- Whether `re.match(r'^[a-zA-Z0-9._-]+$', s)` succeeds. -/
def githubNameOk (s : String) : Bool :=
  s ≠ "" && s.toList.all isGithubNameChar

/-- The hosts `validate_github_url` accepts. -/
def githubHosts : List String := ["github.com", "www.github.com"]

/-- Model of `validate_github_url`: the URL is rejected unless its
lowercased netloc is exactly one of the GitHub hosts and its path has at
least owner and repository segments matching the name pattern. -/
def validateGithubUrl (url : String) : Bool :=
  if url = "" then false
  else if ¬ githubHosts.contains (strLower (urlparseNetloc url)) then false
  else
    let pathParts := pySplit (pyStripChar (urlparsePath url) '/') '/'
    if pathParts.length < 2 then false
    else
      let owner := pathParts.headD ""
      let repo := (pathParts.drop 1).headD ""
      if ¬ (githubNameOk owner && githubNameOk repo) then false
      else if owner = "" ∨ repo = "" then false
      else true

/-! ### backend/app/services/github_service.py

`_get_repository_files` is embedded as a function of an abstract
response environment: `treeOf` gives the outcome of the tree-listing
request per branch and `fetchBlob` the outcome of one blob fetch
(`None` when the per-file fetch is absorbed: decode failure, oversize,
transport error).  Besides the result, the embedding returns the list of
branches for which a tree listing was requested, in request order, so
that the retry discipline is observable. -/

/-- One entry of the GitHub tree listing. -/
structure TreeItem where
  itemType : String
  path : String
  sha : String
  size : Int
deriving Repr, DecidableEq

/-- Outcome of one tree-listing request. -/
inductive TreeOutcome where
  | ok (items : List TreeItem)
  | status (code : Nat)
  | netError (msg : String)
deriving Repr

/-- One fetched source file (the `GitHubFile` model). -/
structure GitHubFileM where
  name : String
  path : String
  content : String
  language : Option String
  size : Int
deriving Repr, DecidableEq

/-- Model of `GitHubService._get_repository_files`: list the tree of
`branch`; on HTTP 404 for branch `main` retry once with `master`, on a
404 for any other branch fail with the tree-not-found error, on any
other HTTP failure or network failure fail without retrying.  On success
keep the blob entries that pass `is_supported_file`, truncate to
`maxFiles`, and fetch contents, dropping absorbed failures.  The second
component records the branches queried. -/
def getRepositoryFiles (treeOf : String → TreeOutcome)
    (fetchBlob : TreeItem → Option GitHubFileM)
    (fileTypes : List String) (maxFiles : Nat) (branch : String) :
    Except String (List GitHubFileM) × List String :=
  match treeOf branch with
  | .ok items =>
    let supported :=
      (items.filter fun it =>
        it.itemType = "blob" && isSupportedFile it.path fileTypes).take maxFiles
    (.ok (supported.filterMap fetchBlob), [branch])
  | .status code =>
    if code = 404 then
      if _h : branch = "main" then
        let inner := getRepositoryFiles treeOf fetchBlob fileTypes maxFiles "master"
        (inner.1, branch :: inner.2)
      else (.error ("Repository tree not found for branch " ++ branch), [branch])
    else
      (.error ("Failed to fetch repository files: " ++ toString code), [branch])
  | .netError msg =>
    (.error ("Network error while fetching files: " ++ msg), [branch])
termination_by (if branch = "main" then 1 else 0)
decreasing_by simp_all

/-! ### backend/app/services/analysis_service.py

The orchestrator.  Its two effectful upstream steps — repository
ingestion and the provider exchange (whose reply `claude_service`
already pipes through `parse_claude_response`) — are abstracted as an
ingestion outcome and an exchange function, both `Except String` valued
as the Python services raise `ValueError` with message strings.  The
response dicts flowing between the services are the `CleanedResponse`
structure that `parse_claude_response` always returns, on which the
`.get` defaults of the Python code never fire. -/

/-- A validated issue (the pydantic `CodeIssue` model). -/
structure CodeIssueM where
  file : String
  line : Option Int
  issueType : String
  severity : String
  message : String
  suggestion : String
  code_snippet : Option String
  improved_code : Option String
deriving Repr, DecidableEq

/-- Pydantic validation of a `CodeIssue` built from one cleaned issue:
enum membership for type and severity, length bounds with non-empty
message and suggestion, a line number of at least one.  A failing issue
is skipped by `_extract_issues_from_claude_response`. -/
def toCodeIssue (ci : CleanedIssue) : Option CodeIssueM :=
  if validTypes.contains ci.type &&
      validSeverities.contains ci.severity &&
      decide (1 ≤ ci.message.length) && decide (ci.message.length ≤ 500) &&
      decide (1 ≤ ci.suggestion.length) &&
      decide (ci.suggestion.length ≤ 1000) &&
      (ci.line.getD 1 ≥ 1) &&
      ((ci.code_snippet.getD "").length ≤ 2000) &&
      ((ci.improved_code.getD "").length ≤ 2000) then
    some
      { file := ci.file, line := ci.line, issueType := ci.type
        severity := ci.severity, message := ci.message
        suggestion := ci.suggestion, code_snippet := ci.code_snippet
        improved_code := ci.improved_code }
  else none

/-- Model of `_extract_issues_from_claude_response`: validate each
cleaned issue, skipping invalid ones. -/
def extractIssuesFromClaudeResponse (cleaned : CleanedResponse) :
    List CodeIssueM :=
  cleaned.detailed_issues.filterMap toCodeIssue

/-- Model of `_count_issues_by_severity`. -/
def countIssuesBySeverity (issues : List CodeIssueM) (severity : String) : Int :=
  (issues.countP (fun i => i.severity = severity) : Nat)

/-- The analysis summary of the final result (the pydantic
`AnalysisSummary` model). -/
structure AnalysisSummaryM where
  total_issues : Int
  critical_issues : Int
  security_issues : Int
  performance_issues : Int
  maintainability_issues : Int
  style_issues : Int
  bug_issues : Int
  overall_score : Int
deriving Repr, DecidableEq

/-- Model of `_create_analysis_summary`.  The cleaned response always
carries every summary key, so the issue-count and fallback-score
defaults of the Python `.get` calls are never taken. -/
def createAnalysisSummary (cleaned : CleanedResponse)
    (issues : List CodeIssueM) : AnalysisSummaryM :=
  { total_issues := cleaned.analysis_summary.total_issues
    critical_issues := countIssuesBySeverity issues "critical"
    security_issues := cleaned.analysis_summary.security_issues
    performance_issues := cleaned.analysis_summary.performance_issues
    maintainability_issues := cleaned.analysis_summary.maintainability_issues
    style_issues := cleaned.analysis_summary.style_issues
    bug_issues := cleaned.analysis_summary.bug_issues
    overall_score := cleaned.analysis_summary.overall_score }

/-- Model of `_calculate_fallback_score` (critical 25, high 15,
medium 8, low 3, floor 0, 95 when no issues). -/
def calculateFallbackScore (issues : List CodeIssueM) : Int :=
  if issues = [] then 95
  else
    let penalty := issues.foldl
      (fun acc i =>
        acc +
          (if i.severity = "critical" then 25
           else if i.severity = "high" then 15
           else if i.severity = "medium" then 8
           else if i.severity = "low" then 3
           else 0))
      (0 : Int)
    max 0 (100 - penalty)

/-- One row of the per-file breakdown (the pydantic `FileBreakdown`
model). -/
structure FileBreakdownM where
  file : String
  issues_count : Nat
  score : Int
  languages : List String
deriving Repr, DecidableEq

/-- The severity penalty sum of `_calculate_file_score` (critical 30,
high 20, medium 10, low 5; the if/elif chain has no else branch, so any
other severity adds nothing). -/
def fileIssuePenalty (fileIssues : List CodeIssueM) : Int :=
  fileIssues.foldl
    (fun acc i =>
      acc +
        (if i.severity = "critical" then 30
         else if i.severity = "high" then 20
         else if i.severity = "medium" then 10
         else if i.severity = "low" then 5
         else 0))
    0

/-- Model of `_calculate_file_score`: with no issues attributed to the
file, the complexity heuristic capped at 95; otherwise 100 minus the
severity penalties, clamped. -/
def calculateFileScore (file : GitHubFileM) (fileIssues : List CodeIssueM) : Int :=
  if fileIssues = [] then
    min 95 (calculateComplexityScore file.content file.language)
  else
    max 0 (min 100 (100 - fileIssuePenalty fileIssues))

/-- Last cleaned file score recorded for a path: the dict comprehension
`{fs["file"]: fs for fs in ...}` keeps the last entry per key. -/
def lookupFileScore (fileScores : List CleanedFileScore) (path : String) :
    Option CleanedFileScore :=
  (fileScores.filter (fun fs => fs.file = path)).getLast?

/-- The language list of one breakdown row: `[file.language] if
file.language else []` (Python truthiness, so an empty tag also gives
the empty list). -/
def breakdownLanguages (file : GitHubFileM) : List String :=
  match file.language with
  | some l => if l = "" then [] else [l]
  | none => []

/-- Model of `_create_file_breakdown`: per analysed file, count its
attributed issues, prefer the AI-supplied score for its exact path and
otherwise fall back to `_calculate_file_score`, clamping to [0, 100]. -/
def createFileBreakdown (files : List GitHubFileM) (issues : List CodeIssueM)
    (cleaned : CleanedResponse) : List FileBreakdownM :=
  files.map fun file =>
    let fileIssues := issues.filter (fun i => i.file = file.path)
    let score :=
      match lookupFileScore cleaned.file_scores file.path with
      | some fs => fs.score
      | none => calculateFileScore file fileIssues
    { file := file.path
      issues_count := fileIssues.length
      score := max 0 (min 100 score)
      languages := breakdownLanguages file }

/-- The ingestion result consumed by the orchestrator (the
`GitHubRepository` model, restricted to the fields the orchestrator
reads). -/
structure GitHubRepositoryM where
  name : String
  languages : List String
  files : List GitHubFileM
deriving Repr, DecidableEq

/-- The caller-facing analysis result (the `AnalysisResult` model;
the wall-clock timestamp is not modelled). -/
structure AnalysisResultM where
  repositoryName : String
  repositoryUrl : String
  repositoryLanguages : List String
  totalFilesAnalyzed : Nat
  summary : AnalysisSummaryM
  issues : List CodeIssueM
  file_breakdown : List FileBreakdownM
deriving Repr, DecidableEq

/-- Model of `_structure_analysis_result`. -/
def structureAnalysisResult (githubRepo : GitHubRepositoryM)
    (claudeAnalysis : CleanedResponse) (requestUrl : String) : AnalysisResultM :=
  let issues := extractIssuesFromClaudeResponse claudeAnalysis
  { repositoryName := githubRepo.name
    repositoryUrl := requestUrl
    repositoryLanguages := githubRepo.languages
    totalFilesAnalyzed := githubRepo.files.length
    summary := createAnalysisSummary claudeAnalysis issues
    issues := issues
    file_breakdown := createFileBreakdown githubRepo.files issues claudeAnalysis }

/-- Model of `AnalysisService.analyze_repository`: ingest, refuse an
empty file set, exchange with the provider, structure the result; any
raise on the way is caught and re-raised as
`ValueError("Analysis failed: ...")` — the orchestrator has no
degraded-result path. -/
def analyzeRepository (fetchOutcome : Except String GitHubRepositoryM)
    (analyzeCode : List GitHubFileM → Except String CleanedResponse)
    (requestUrl : String) : Except String AnalysisResultM :=
  let attempt : Except String AnalysisResultM :=
    match fetchOutcome with
    | .error e => .error e
    | .ok githubRepo =>
      if githubRepo.files = [] then
        .error "No analyzable files found in the repository"
      else
        match analyzeCode githubRepo.files with
        | .error e => .error e
        | .ok claudeAnalysis =>
          .ok (structureAnalysisResult githubRepo claudeAnalysis requestUrl)
  match attempt with
  | .ok r => .ok r
  | .error e => .error ("Analysis failed: " ++ e)

/-! ### Claim-side formulations and helper lemmas -/

/-- The spec's line-count penalty, as a standalone function. -/
def lineCountPenalty (n : Int) : Int :=
  if n > 100 then min 30 ((n - 100) / 20) else 0

/-- The spec's nesting penalty. -/
def nestingPenalty (depth : Int) : Int :=
  if depth > 3 then min 25 ((depth - 3) * 5) else 0

/-- The spec's keyword-density penalty. -/
def keywordPenalty (count : Int) : Int :=
  if count > 10 then min 20 ((count - 10) * 2) else 0

/-- The spec's long-line penalty. -/
def longLinePenalty (count : Int) : Int :=
  if count > 5 then min 15 ((count - 5) * 3) else 0

/-- The spec's comment bonus, with the ratio comparison and the
truncation of ratio-times-fifty carried out in exact arithmetic:
`comments / n > 1/10` iff `10 * comments > n`, and
`int((comments / n) * 50) = (comments * 50) / n` for nonnegative
counts. -/
def commentBonus (comments n : Int) : Int :=
  if 10 * comments > n then min 10 (comments * 50 / n) else 0

/-! ### Theorems for the claims -/

/-- C8: for every file path and allow-list, `is_supported_file` returns
true exactly when the path is non-empty, the allow-list is non-empty,
and the path's lowercased dot-stripped extension is a member of the
lowercased dot-stripped allow-list; in particular an empty path or an
empty allow-list always yields false. -/
theorem claimC8_eligibility (path : String) (allow : List String) :
    isSupportedFile path allow = true ↔
      path ≠ "" ∧ allow ≠ [] ∧ pathExtNorm path ∈ allow.map normalizeExt := by
  unfold isSupportedFile
  split
  · rename_i h
    simp only [Bool.false_eq_true, false_iff]
    rintro ⟨h1, h2, -⟩
    rcases h with h | h
    · exact h1 h
    · exact h2 h
  · rename_i h
    push_neg at h
    simp [h.1, h.2, List.contains_iff_exists_mem_beq, beq_iff_eq]

/-- Witness for C8: an uppercase extension under a dotted allow-list
entry is eligible, and the empty path is not. -/
theorem claimC8_eligibility_witness :
    isSupportedFile "src/Main.PY" [".py", "js"] = true ∧
    isSupportedFile "" [".py", "js"] = false := by
  constructor
  · exact (claimC8_eligibility "src/Main.PY" [".py", "js"]).mpr
      ⟨by decide, by decide, by decide⟩
  · have h := claimC8_eligibility "" [".py", "js"]
    simp at h
    exact h

set_option maxHeartbeats 2000000 in
/-- C9: the complexity score is always an integer in [0, 100], empty
content scores exactly 100, and in general the score is 100 minus the
four capped penalties plus the capped comment bonus, clamped to
[0, 100]. -/
theorem claimC9_complexity (content : String) (language : Option String) :
    (0 ≤ calculateComplexityScore content language ∧
      calculateComplexityScore content language ≤ 100) ∧
    calculateComplexityScore "" language = 100 ∧
    calculateComplexityScore content language =
      (if content = "" then 100
       else if nonEmptyLines content = [] then 100
       else
        max 0 (min 100
          (100 - lineCountPenalty ((nonEmptyLines content).length : Int)
            - nestingPenalty (calculateMaxNesting content language)
            - keywordPenalty (countComplexityKeywords content language)
            - longLinePenalty (longLineCount content)
            + commentBonus (countCommentLines content language)
                ((nonEmptyLines content).length : Int)))) := by
  refine ⟨?_, rfl, ?_⟩
  · unfold calculateComplexityScore
    dsimp only
    split_ifs <;> omega
  · unfold calculateComplexityScore lineCountPenalty nestingPenalty
      keywordPenalty longLinePenalty commentBonus
    dsimp only
    split_ifs <;> omega

/-- C10: `validate_github_url` accepts only URLs whose network location,
lowercased, is exactly `github.com` or `www.github.com`; every URL on
any other host is rejected regardless of its path. -/
theorem claimC10_host_restriction (url : String)
    (h : strLower (urlparseNetloc url) ∉ githubHosts) :
    validateGithubUrl url = false := by
  have hc : githubHosts.contains (strLower (urlparseNetloc url)) = false := by
    simpa [List.contains_iff_exists_mem_beq, beq_iff_eq] using h
  unfold validateGithubUrl
  split_ifs with h1 h2 <;> simp_all

/-- Witness for C10: a well-formed repository path on `gitlab.com` is
rejected. -/
theorem claimC10_host_restriction_witness :
    validateGithubUrl "https://gitlab.com/octocat/Hello-World" = false :=
  claimC10_host_restriction "https://gitlab.com/octocat/Hello-World" (by decide)

/-- C6: JSON extraction tries the fenced-json pattern, then the plain
fenced pattern, then the raw brace pattern, parsing candidates in order
with the first successful parse winning: whenever no candidate of the
first two patterns parses and some brace-delimited candidate parses, the
extraction returns the first parseable brace-delimited candidate. -/
theorem claimC6_extraction_order (jl : String → Option JVal) (s : String)
    (v : JVal)
    (ha : firstParse jl (findallFenced jsonFenceTag s) = none)
    (hb : firstParse jl (findallFenced ticks s) = none)
    (hc : firstParse jl (findallBrace s) = some v) :
    extractJsonFromResponse jl s = some v := by
  unfold extractJsonFromResponse
  rw [ha, hb, hc]

/-- Witness for C6: free text around a brace-delimited object, with no
fenced block, extracts that object. -/
theorem claimC6_extraction_order_witness :
    extractJsonFromResponse myJsonParse "junk \x7b\"a\": 1\x7d end" =
      some (.obj [("a", .int 1)]) :=
  claimC6_extraction_order myJsonParse "junk \x7b\"a\": 1\x7d end"
    (.obj [("a", .int 1)]) rfl rfl rfl

/-- C7: on non-empty input in which extraction finds no JSON, the parser
returns the keyword-frequency fallback: total issues is the
case-insensitive word count of issue/problem/bug/error/warning, security
and performance mentions are capped at the total, the score is
`max 50 (100 - total * 10)`, the issue and file-score lists are empty,
and the general feedback is the raw text truncated to 1000
characters. -/
theorem claimC7_keyword_fallback (jl : String → Option JVal) (s : String)
    (hne : s ≠ "") (hx : extractJsonFromResponse jl s = none) :
    parseClaudeResponse jl s = .ok
      { analysis_summary :=
          { total_issues := (countWordsCI issueWords s : Int)
            security_issues :=
              min (countWordsCI securityWords s : Int) (countWordsCI issueWords s : Int)
            performance_issues :=
              min (countWordsCI performanceWords s : Int) (countWordsCI issueWords s : Int)
            maintainability_issues :=
              max 0 ((countWordsCI issueWords s : Int)
                - (countWordsCI securityWords s : Int)
                - (countWordsCI performanceWords s : Int))
            style_issues := 0
            bug_issues := 0
            overall_score := max 50 (100 - (countWordsCI issueWords s : Int) * 10) }
        detailed_issues := []
        file_scores := []
        general_feedback := strTake s 1000 } := by
  unfold parseClaudeResponse
  rw [if_neg hne, hx]
  rfl

/-- Witness for C7: a plain sentence with two issue keywords and one
security keyword. -/
theorem claimC7_keyword_fallback_witness :
    parseClaudeResponse myJsonParse "found an Issue and a security problem" =
      .ok
        { analysis_summary :=
            { total_issues := 2, security_issues := 1, performance_issues := 0
              maintainability_issues := 1, style_issues := 0, bug_issues := 0
              overall_score := 80 }
          detailed_issues := []
          file_scores := []
          general_feedback := "found an Issue and a security problem" } :=
  claimC7_keyword_fallback myJsonParse "found an Issue and a security problem"
    (by decide) rfl

theorem strTake_length (s : String) (n : Nat) : (strTake s n).length ≤ n := by
  show (s.toList.take n).length ≤ n
  simp [List.length_take]

theorem safeInt_zero_bounds (v : JVal) :
    0 ≤ safeInt v 0 (some 0) (some 100) ∧ safeInt v 0 (some 0) (some 100) ≤ 100 := by
  unfold safeInt
  cases h : pyIntVal v with
  | none => simp
  | some r =>
    simp only []
    constructor <;> omega

theorem assocGetD_mem (T : List String) (l : List (String × String)) (k d : String)
    (hl : ∀ p ∈ l, p.2 ∈ T) (hd : d ∈ T) : assocGetD l k d ∈ T := by
  induction l with
  | nil => exact hd
  | cons p rest ih =>
    unfold assocGetD
    split
    · exact hl p (List.mem_cons_self p rest)
    · exact ih (fun q hq => hl q (List.mem_cons_of_mem p hq))

theorem validateIssueType_mem (v : JVal) : validateIssueType v ∈ validTypes := by
  unfold validateIssueType
  dsimp only
  split
  · rename_i hc
    simpa [List.contains_iff_exists_mem_beq, beq_iff_eq] using hc
  · exact assocGetD_mem validTypes typeMappings _ _ (by decide) (by decide)

theorem validateSeverity_mem (v : JVal) : validateSeverity v ∈ validSeverities := by
  unfold validateSeverity
  dsimp only
  split
  · rename_i hc
    simpa [List.contains_iff_exists_mem_beq, beq_iff_eq] using hc
  · exact assocGetD_mem validSeverities severityMappings _ _ (by decide) (by decide)

theorem cleanIssue_bounds (ikvs : List (String × JVal)) :
    (cleanIssue ikvs).type ∈ validTypes ∧
    (cleanIssue ikvs).severity ∈ validSeverities ∧
    (cleanIssue ikvs).message.length ≤ 500 ∧
    (cleanIssue ikvs).suggestion.length ≤ 1000 ∧
    (∀ cs, (cleanIssue ikvs).code_snippet = some cs → cs.length ≤ 2000) ∧
    (∀ ic, (cleanIssue ikvs).improved_code = some ic → ic.length ≤ 2000) := by
  unfold cleanIssue
  refine ⟨validateIssueType_mem _, validateSeverity_mem _,
    strTake_length _ _, strTake_length _ _, ?_, ?_⟩
  · dsimp only
    split
    · intro cs hcs
      cases hcs
      exact strTake_length _ _
    · intro cs hcs
      cases hcs
  · dsimp only
    split
    · intro ic hic
      cases hic
      exact strTake_length _ _
    · intro ic hic
      cases hic

/-- C5: whenever `_validate_and_clean_response` returns a cleaned result,
the overall score is clamped to [0, 100]; every issue of the output has a
type in the fixed type enumeration and a severity in the fixed severity
enumeration with message, suggestion and snippet strings truncated to
500, 1000 and 2000 characters; `warn` normalizes to `medium`; and the
type and severity validators are total functions into the fixed
enumerations — unrecognized values are remapped or defaulted, never
rejected. -/
theorem claimC5_issue_validation (data : JVal) (r : CleanedResponse)
    (h : validateAndCleanResponse data = .ok r) :
    (0 ≤ r.analysis_summary.overall_score ∧
      r.analysis_summary.overall_score ≤ 100) ∧
    validateSeverity (.str "warn") = "medium" ∧
    (∀ i ∈ r.detailed_issues,
      i.type ∈ validTypes ∧ i.severity ∈ validSeverities ∧
      i.message.length ≤ 500 ∧ i.suggestion.length ≤ 1000 ∧
      (∀ cs, i.code_snippet = some cs → cs.length ≤ 2000) ∧
      (∀ ic, i.improved_code = some ic → ic.length ≤ 2000)) ∧
    (∀ v, validateIssueType v ∈ validTypes) ∧
    (∀ v, validateSeverity v ∈ validSeverities) := by
  unfold validateAndCleanResponse at h
  cases data with
  | null => simp at h
  | bool b => simp at h
  | int n => simp at h
  | str s => simp at h
  | arr xs => simp at h
  | obj kvs =>
    dsimp only at h
    cases hsum : jLookupD kvs "analysis_summary" (.obj []) with
    | null => rw [hsum] at h; simp at h
    | bool b => rw [hsum] at h; simp at h
    | int n => rw [hsum] at h; simp at h
    | str s => rw [hsum] at h; simp at h
    | arr xs => rw [hsum] at h; simp at h
    | obj skvs =>
      rw [hsum] at h
      cases hiss : pyIter (jLookupD kvs "detailed_issues" (.arr [])) with
      | none => rw [hiss] at h; simp at h
      | some issueVals =>
        rw [hiss] at h
        cases hfs : pyIter (jLookupD kvs "file_scores" (.arr [])) with
        | none => rw [hfs] at h; simp at h
        | some scoreVals =>
          rw [hfs] at h
          injection h with h2
          subst h2
          refine ⟨safeInt_zero_bounds _, rfl, ?_, validateIssueType_mem,
            validateSeverity_mem⟩
          intro i hi
          simp only [List.mem_filterMap] at hi
          obtain ⟨v, -, hv⟩ := hi
          match v with
          | .obj ikvs =>
            simp only [Option.some.injEq] at hv
            subst hv
            exact cleanIssue_bounds ikvs
          | .null | .bool _ | .int _ | .str _ | .arr _ => cases hv

/-- The concrete payload driving the C5 witness: one issue with severity
`warn` and short message and suggestion strings. -/
def c5Payload : JVal :=
  .obj [("detailed_issues", .arr
    [.obj [("severity", .str "warn"), ("message", .str "m"),
           ("suggestion", .str "s")]])]

/-- The cleaned result of the C5 witness payload. -/
def c5Cleaned : CleanedResponse :=
  { analysis_summary :=
      { total_issues := 0, security_issues := 0, performance_issues := 0
        maintainability_issues := 0, style_issues := 0, bug_issues := 0
        overall_score := 85 }
    detailed_issues :=
      [{ file := "unknown", line := none, type := "maintainability"
         severity := "medium", message := "m", suggestion := "s"
         code_snippet := none, improved_code := none }]
    file_scores := []
    general_feedback := "" }

/-- Witness for C5: on the concrete payload the validation succeeds, the
score is in bounds and `warn` maps to `medium`. -/
theorem claimC5_issue_validation_witness :
    (0 ≤ c5Cleaned.analysis_summary.overall_score ∧
      c5Cleaned.analysis_summary.overall_score ≤ 100) ∧
    validateSeverity (.str "warn") = "medium" :=
  ⟨(claimC5_issue_validation c5Payload c5Cleaned rfl).1,
   (claimC5_issue_validation c5Payload c5Cleaned rfl).2.1⟩

/-- C1 (failing-input evaluation): on the raw text
`{"analysis_summary": 3}` — a brace-delimited valid JSON object whose
`analysis_summary` is a number rather than an object — the response
parser raises (`summary.get(...)` hits an `AttributeError` on the
integer) instead of returning a structured result, contradicting the
claimed total, never-raising behaviour. -/
theorem claimC1_crash_on_non_object_summary :
    parseClaudeResponse myJsonParse "\x7b\"analysis_summary\": 3\x7d" =
      .error "AttributeError: analysis_summary has no attribute get" := rfl

/-- C3: querying the tree of branch `main`, a 404 triggers exactly one
retry against `master` and nothing else does — the branches queried are
`main` and then `master` exactly when the first listing 404s, and only
`main` otherwise; a second 404 is terminal with the tree-not-found
error; a non-404 listing failure is terminal without a retry. -/
theorem claimC3_branch_retry (treeOf : String → TreeOutcome)
    (fetchBlob : TreeItem → Option GitHubFileM)
    (fileTypes : List String) (maxFiles : Nat) :
    ((getRepositoryFiles treeOf fetchBlob fileTypes maxFiles "main").2 =
      match treeOf "main" with
      | .status 404 => ["main", "master"]
      | _ => ["main"]) ∧
    (treeOf "main" = .status 404 → treeOf "master" = .status 404 →
      getRepositoryFiles treeOf fetchBlob fileTypes maxFiles "main" =
        (.error "Repository tree not found for branch master",
         ["main", "master"])) ∧
    (∀ code, code ≠ 404 → treeOf "main" = .status code →
      getRepositoryFiles treeOf fetchBlob fileTypes maxFiles "main" =
        (.error ("Failed to fetch repository files: " ++ toString code),
         ["main"])) := by
  refine ⟨?_, ?_, ?_⟩
  · rw [getRepositoryFiles.eq_def]
    cases hm : treeOf "main" with
    | ok items => rfl
    | netError msg => rfl
    | status code =>
      by_cases hc : code = 404
      · subst hc
        simp only [if_pos rfl, dif_pos rfl]
        rw [getRepositoryFiles.eq_def]
        cases treeOf "master" with
        | ok items => rfl
        | netError msg => rfl
        | status code2 =>
          by_cases hc2 : code2 = 404
          · subst hc2; rfl
          · simp [hc2]
      · simp [hc]
  · intro h1 h2
    rw [getRepositoryFiles.eq_def, h1]
    simp only [if_pos rfl, dif_pos rfl]
    rw [getRepositoryFiles.eq_def, h2]
    rfl
  · intro code hc h1
    rw [getRepositoryFiles.eq_def, h1]
    simp [hc]

/-- The all-404 tree environment of the C3 witness. -/
def treeOf404 : String → TreeOutcome := fun _ => .status 404

/-- Witness for C3: with both listings answering 404, the fetch ends in
the terminal not-found error after exactly the two branch queries. -/
theorem claimC3_branch_retry_witness :
    getRepositoryFiles treeOf404 (fun _ => none) [] 0 "main" =
      (.error "Repository tree not found for branch master",
       ["main", "master"]) :=
  (claimC3_branch_retry treeOf404 (fun _ => none) [] 0).2.1 rfl rfl

/-- C2 (counterexample): on an unrecoverable ingestion failure the
orchestrator does not return a degraded result — it re-raises a
`ValueError` with the failure message, so the caller of
`analyze_repository` receives an exception, not a structured result. -/
theorem claimC2_counterexample :
    analyzeRepository (.error "Repository octocat/Hello-World not found")
      (fun _ => .error "unreached") "https://github.com/octocat/Hello-World" =
      .error "Analysis failed: Repository octocat/Hello-World not found" := rfl

/-- C2 (amended): on any unrecoverable upstream failure — ingestion
failure, an ingestion result with zero analyzable files, or a provider
exchange failure — `analyze_repository` raises a `ValueError` whose
message prefixes the human-readable cause with `Analysis failed: `,
rather than returning a well-formed degraded result. -/
theorem claimC2_error_wrapping (msg : String)
    (analyzeCode : List GitHubFileM → Except String CleanedResponse)
    (url : String) (repo : GitHubRepositoryM) :
    analyzeRepository (.error msg) analyzeCode url =
      .error ("Analysis failed: " ++ msg) ∧
    analyzeRepository (.ok repo) (fun _ => .error msg) url =
      .error ("Analysis failed: " ++
        (if repo.files = [] then "No analyzable files found in the repository"
         else msg)) := by
  constructor
  · rfl
  · by_cases hf : repo.files = [] <;> simp [analyzeRepository, hf]

/-- The file of the C4 counterexample: empty content, so the complexity
heuristic gives a perfect 100. -/
def c4File : GitHubFileM :=
  { name := "empty.py", path := "empty.py", content := ""
    language := some "python", size := 0 }

/-- C4 (counterexample): for a file with no AI-supplied score and no
attributed issues, the reported score is the heuristic capped at 95, not
the heuristic itself: the empty file scores 100 under the heuristic but
95 in the breakdown. -/
theorem claimC4_counterexample :
    createFileBreakdown [c4File] [] getEmptyResponse =
      [{ file := "empty.py", issues_count := 0, score := 95
         languages := ["python"] }] ∧
    calculateComplexityScore "" (some "python") = 100 := ⟨rfl, rfl⟩

/-- C4 (amended): per analysed file the reported score is the
AI-supplied score for that exact path (last entry wins) clamped to
[0, 100] when one is present; otherwise, with no issues attributed to
the file, the complexity heuristic capped at 95; otherwise 100 minus the
severity penalties, clamped — and every reported score lies in
[0, 100]. -/
theorem claimC4_file_scores (files : List GitHubFileM)
    (issues : List CodeIssueM) (cleaned : CleanedResponse) :
    createFileBreakdown files issues cleaned =
      (files.map fun f =>
        let fIss := issues.filter (fun i => i.file = f.path)
        { file := f.path
          issues_count := fIss.length
          score := max 0 (min 100
            (match lookupFileScore cleaned.file_scores f.path with
             | some fs => fs.score
             | none =>
               if fIss = [] then
                 min 95 (calculateComplexityScore f.content f.language)
               else max 0 (min 100 (100 - fileIssuePenalty fIss))))
          languages := breakdownLanguages f }) ∧
    ((createFileBreakdown files issues cleaned).all fun fb =>
      decide (0 ≤ fb.score) && decide (fb.score ≤ 100)) = true := by
  constructor
  · rfl
  · simp only [createFileBreakdown, List.all_eq_true, List.mem_map]
    rintro fb ⟨f, -, rfl⟩
    simp only [Bool.and_eq_true, decide_eq_true_eq]
    omega

end Zenshin
